import Mathlib

/-!
Shallow embedding of the PRESEIS DGM/VELMOD sampler repository.

The repository has two parts:
* `src/scripts/convert.py` — assembles two canonical unit-indexed models
  (DGM: per-unit base depth "tvd"; VELMOD: per-unit velocity intercept V0,
  slope k, alternate intercept Vint, and a gap-filled intercept V0_filled),
  each carrying a canonical "ordering" field and sorted by it.
* `src/dgm_velmod_sampler/sample_dgm_velmod.py` — samples both models at
  query points and, when a depth z is supplied, resolves the active
  stratigraphic unit and composes a combined instantaneous velocity.

Modelling conventions:
* Spatial cells are abstract indices (`Cell := ℕ`); a model field is a
  function from unit and cell to a value.  A query point is a grid cell:
  xarray's `.interp` (an external library call) degenerates to node lookup
  at query coordinates that coincide with grid nodes, which is the spatial
  behaviour the claims depend on; interpolation between nodes only changes
  the per-point field values, over which all theorems quantify.
* Floating-point NaN ("no-data") is `Option.none`; arithmetic on values is
  exact rational arithmetic with explicit none-propagation, and xarray's
  skip-missing `sum` is an explicit fold that skips `none`.
* The DGM base depth additionally admits `-∞` (the synthetic terminal
  sentinel written by `convert.py`), embedded as a dedicated constructor.
-/

/-- Abstract spatial grid cell (a node of the x/y raster). -/
abbrev Cell := ℕ

/-- Stratigraphic unit code (e.g. "N", "CK", "DC"). -/
abbrev UnitId := String

/-- A DGM base-depth value: no-data (NaN), the −∞ sentinel, or a finite
depth (negative is down, in metres relative to NAP). -/
inductive DepthVal where
  | nodata : DepthVal
  | negInf : DepthVal
  | fin (q : ℚ) : DepthVal
deriving DecidableEq, Repr

/-- The elementwise comparison `tvd < z` of `sample_dgm_velmod.py` line 93,
for a finite query depth `z`.  NumPy yields `False` when the stored depth is
NaN, `True` when it is `-inf` (since `-inf < z` for finite `z`). -/
def depthBelow (d : DepthVal) (z : ℚ) : Bool :=
  match d with
  | .nodata => false
  | .negInf => true
  | .fin q => decide (q < z)

/-- Option-valued multiplication: NaN (none) propagates, as in NumPy. -/
def obMul (a b : Option ℚ) : Option ℚ :=
  match a, b with
  | some x, some y => some (x * y)
  | _, _ => none

/-- Option-valued subtraction: NaN (none) propagates, as in NumPy. -/
def obSub (a b : Option ℚ) : Option ℚ :=
  match a, b with
  | some x, some y => some (x - y)
  | _, _ => none

/-- xarray's `sum` over an axis with its default skip-missing behaviour:
`none` entries are skipped, so an all-`none` (or empty) axis sums to `0`. -/
def sumSkip (l : List (Option ℚ)) : ℚ :=
  l.foldl (fun acc o => match o with | some v => acc + v | none => acc) 0

/-- xarray `idxmax` along the unit axis of a boolean field
(`sample_dgm_velmod.py` line 93): the label of the first `true`, or the
first label when every entry is `false`.  (`none` only on an empty axis,
where the library call would raise instead.) -/
def idxmaxUnit (l : List UnitId) (p : UnitId → Bool) : Option UnitId :=
  match l.find? p with
  | some u => some u
  | none => l.head?

/-- Byte-wise lexicographic comparison of character lists (the order NumPy
uses for string arrays in `intersect1d`). -/
def charsLe : List Char → List Char → Bool
  | [], _ => true
  | _ :: _, [] => false
  | a :: as, b :: bs =>
      if a.toNat < b.toNat then true
      else if b.toNat < a.toNat then false
      else charsLe as bs

/-- Lexicographic `≤` on unit codes. -/
def strLe (a b : UnitId) : Bool := charsLe a.data b.data

/-- Insert an element into a list before the first entry it compares `le`
to (auxiliary of the insertion sort used to model sorting of unit axes). -/
def insertLe (le : UnitId → UnitId → Bool) (a : UnitId) : List UnitId → List UnitId
  | [] => [a]
  | b :: t => if le a b then a :: b :: t else b :: insertLe le a t

/-- Insertion sort on unit lists (structural, so that concrete instances
evaluate inside the kernel); models the sorting done by `np.intersect1d`
and xarray `.sortby`. -/
def sortLe (le : UnitId → UnitId → Bool) : List UnitId → List UnitId
  | [] => []
  | a :: t => insertLe le a (sortLe le t)

/-- `np.intersect1d` (`sample_dgm_velmod.py` line 55): the sorted list of
unique values present in both input arrays. -/
def intersect1d (a b : List UnitId) : List UnitId :=
  sortLe strLe (a.filter fun u => decide (u ∈ b)).dedup

/-- xarray `.sortby("ordering")`: sort the unit axis ascending by the
per-unit ordering value. -/
def sortByOrdering (ord : UnitId → ℕ) (units : List UnitId) : List UnitId :=
  sortLe (fun a b => decide (ord a ≤ ord b)) units

/-- The canonical DGM model as assembled by `convert.py`: a CRS tag, the
spatial cells, the unit axis (sorted by ordering), the per-unit base-depth
grid `tvd`, and the canonical ordering field. -/
structure DgmModel where
  crs : String
  cells : List Cell
  units : List UnitId
  tvd : UnitId → Cell → DepthVal
  ordering : UnitId → ℕ

/-- The canonical VELMOD model as assembled by `convert.py`: per kriging
type and summary statistic, the per-unit intercept `V0` (post-ZE
substitution) and its gap-filled version `V0_filled`; the per-unit slope
`k` (from the documentation csv, one value per unit); the unit axis sorted
by the canonical ordering field. -/
structure VelmodModel where
  crs : String
  cells : List Cell
  units : List UnitId
  V0 : String → String → UnitId → Cell → Option ℚ
  V0_filled : String → String → UnitId → Cell → Option ℚ
  k : UnitId → Option ℚ
  ordering : UnitId → ℕ

/-- The sample collection built by `sample_dgm_velmod` (one query point):
interpolated fields per unit, and — only when a depth `z` was supplied —
the active unit label, the active-unit mask and the combined instantaneous
velocity (the three optional fields are `none` exactly when `z` is). -/
structure SampleResult where
  units : List UnitId
  V0 : UnitId → Option ℚ
  V0_sd : UnitId → Option ℚ
  k : UnitId → Option ℚ
  depth : UnitId → DepthVal
  ordering : UnitId → ℕ
  unit_samples : Option UnitId
  unit_mask : Option (UnitId → Bool)
  Vinst : Option ℚ

/-- `sample_dgm_velmod` (`src/dgm_velmod_sampler/sample_dgm_velmod.py`) at
one query point `pt` and optional depth `z`:
1. assert the two models' CRS tags agree (line 50), else fail;
2. restrict to the units common to both models (`np.intersect1d`, line 55);
3. interpolate both models at the query point and sort each unit axis by
   its ordering field (lines 58–63; at a grid node interpolation is
   lookup);
4. select `V0_filled` at (mean, sk) and (sd, sk) for `V0` and `V0_sd`
   (lines 67–72) and build the sample collection (lines 74–82);
5. when `z` is given: per-unit `Vinst = V0 - k·z` (line 90), active unit
   by `idxmax` of `tvd < z` over the unit axis (line 93), active-unit mask
   (line 97), combined `Vinst` as the masked sum with inactive units
   forced to 0 (line 101). -/
def sample_dgm_velmod (pt : Cell) (z : Option ℚ) (dgm : DgmModel)
    (velmod : VelmodModel) : Except String SampleResult :=
  if dgm.crs = velmod.crs then
    let sel_units := intersect1d dgm.units velmod.units
    let vunits := sortByOrdering velmod.ordering sel_units
    let dunits := sortByOrdering dgm.ordering sel_units
    let V0 : UnitId → Option ℚ := fun u => velmod.V0_filled "sk" "mean" u pt
    let SD : UnitId → Option ℚ := fun u => velmod.V0_filled "sk" "sd" u pt
    let kf : UnitId → Option ℚ := fun u => velmod.k u
    let depth : UnitId → DepthVal := fun u => dgm.tvd u pt
    match z with
    | none =>
        .ok { units := vunits, V0 := V0, V0_sd := SD, k := kf, depth := depth,
              ordering := dgm.ordering, unit_samples := none,
              unit_mask := none, Vinst := none }
    | some zq =>
        let unit_vinst : UnitId → Option ℚ :=
          fun u => obSub (V0 u) (obMul (kf u) (some zq))
        let unitOpt := idxmaxUnit dunits (fun u => depthBelow (depth u) zq)
        let mask : UnitId → Bool := fun u => decide (unitOpt = some u)
        let vinst := sumSkip (vunits.map fun u =>
          if mask u then unit_vinst u else some 0)
        .ok { units := vunits, V0 := V0, V0_sd := SD, k := kf, depth := depth,
              ordering := dgm.ordering, unit_samples := unitOpt,
              unit_mask := some mask, Vinst := some vinst }
  else
    .error "coordinate reference systems of dgm and velmod do not match"

/-! ## Conversion pipeline (`src/scripts/convert.py`) -/

/-- The fixed canonical top-to-bottom unit order hard-coded in
`convert.py` lines 51–76. -/
def unit_canonical_order : List UnitId :=
  ["N", "NU", "NLNM", "NM", "NL", "CK", "KN", "KNG", "KNGL", "KNN", "S", "SL",
   "SG", "SK", "ATPO", "AT", "TR", "RN", "RB", "ZE", "RO", "DCC", "DC", "CL"]

/-- The ordering-assignment loop of `convert.py` (lines 102–104 and
145–147): starting from an all-zero field over the unit axis, write each
unit's index in the canonical vocabulary into its slot. -/
def mkOrdering (units : List UnitId) : UnitId → ℕ :=
  units.foldl
    (fun acc u => fun v => if v = u then unit_canonical_order.indexOf u else acc v)
    (fun _ => 0)

/-- xarray `.mean(["x", "y"])` for one unit's field, with the default
skip-missing behaviour: the mean of the valid cells, or no-data when the
unit has no valid cell at all. -/
def meanValid (cells : List Cell) (f : Cell → Option ℚ) : Option ℚ :=
  let vs := cells.filterMap f
  if vs.isEmpty then none else some (vs.sum / (vs.length : ℚ))

/-- xarray `.fillna` at one cell: keep a valid value, otherwise use the
fill value. -/
def fillna (v fill : Option ℚ) : Option ℚ :=
  match v with
  | some x => some x
  | none => fill

/-- The parsed DGM grid files (each a per-unit base-depth raster, the
output of `dgm_zmap_to_xarray`), plus the shared CRS and spatial cells. -/
structure DgmInput where
  crs : String
  cells : List Cell
  grids : List (UnitId × (Cell → DepthVal))

/-- The DGM half of `convert` (`convert.py` lines 122–150): append the
synthetic `-∞` base for unit "DC" (lines 127–130), stack the grids along
the unit axis, attach the canonical ordering field and sort by it
(lines 144–148). -/
def convertDgm (inp : DgmInput) : DgmModel :=
  let dgmds := inp.grids ++ [("DC", fun _ => DepthVal.negInf)]
  let units := (dgmds.map Prod.fst).dedup
  let ordering := mkOrdering units
  { crs := inp.crs, cells := inp.cells,
    units := sortByOrdering ordering units,
    tvd := fun u c =>
      match dgmds.find? (fun g => decide (g.1 = u)) with
      | some g => g.2 c
      | none => DepthVal.nodata,
    ordering := ordering }

/-- The parsed VELMOD grid files (per kriging type and summary statistic,
the intercept `V0` and the alternate intercept `Vint`) together with the
per-unit slope `k` from the documentation csv. -/
structure VelmodInput where
  crs : String
  cells : List Cell
  units : List UnitId
  V0 : String → String → UnitId → Cell → Option ℚ
  Vint : String → String → UnitId → Cell → Option ℚ
  k : UnitId → Option ℚ

/-- The VELMOD half of `convert` (`convert.py` lines 78–118): merge the
grid files with the csv, attach the canonical ordering field and sort by
it (lines 102–105), overwrite V0 by Vint on unit "ZE" (line 109), and
compute the gap-filled intercept `V0_filled = V0.fillna(V0.mean(x, y))`
per kriging type, statistic and unit (line 115). -/
def convertVelmod (inp : VelmodInput) : VelmodModel :=
  let ordering := mkOrdering inp.units
  let V0s : String → String → UnitId → Cell → Option ℚ :=
    fun kt st u c => if u = "ZE" then inp.Vint kt st u c else inp.V0 kt st u c
  { crs := inp.crs, cells := inp.cells,
    units := sortByOrdering ordering inp.units,
    V0 := V0s,
    V0_filled := fun kt st u c =>
      fillna (V0s kt st u c) (meanValid inp.cells (V0s kt st u)),
    k := inp.k,
    ordering := ordering }

/-- Modelled from the spec: the active-unit condition exactly as §4.6 of
the specification words it — "base depth lies above z (base > z)".  The
code (`tvd < z`, line 93) uses the opposite comparison; this definition
exists only to compare the spec's rule against the code's.  NaN and `-∞`
are never above a finite z. -/
def depthAbove (d : DepthVal) (z : ℚ) : Bool :=
  match d with
  | .nodata => false
  | .negInf => false
  | .fin q => decide (z < q)

/-- Modelled from the spec: the active-unit selection as the
specification states it — the first unit, scanning the ordering-sorted
common-unit axis from the top, whose base depth lies above z. -/
def specActiveUnitAbove (dgm : DgmModel) (velmod : VelmodModel)
    (pt : Cell) (z : ℚ) : Option UnitId :=
  (sortByOrdering dgm.ordering (intersect1d dgm.units velmod.units)).find?
    (fun u => depthAbove (dgm.tvd u pt) z)

/-! ## Concrete test fixtures (used as evaluation witnesses) -/

/-- A small DGM input: unit "N" with base depth −100 everywhere and unit
"CK" with base depth −300 everywhere, on a 2-cell grid. -/
def dgmInputEx : DgmInput :=
  { crs := "epsg:23031", cells := [0, 1],
    grids := [("N", fun _ => DepthVal.fin (-100)),
              ("CK", fun _ => DepthVal.fin (-300))] }

/-- A small VELMOD input: units "CK", "N" and "RO"; "N" has a no-data mean
intercept at cell 0 and 1500 at cell 1; "CK" has 2000 everywhere; "RO" has
no valid intercept cell at all; "CK" has a no-data slope. -/
def velmodInputEx : VelmodInput :=
  { crs := "epsg:23031", cells := [0, 1],
    units := ["CK", "N", "RO"],
    V0 := fun _ st u c =>
      if st = "mean" then
        if u = "N" then (if c = 0 then none else some 1500)
        else if u = "CK" then some 2000
        else none
      else some 10,
    Vint := fun _ _ _ _ => some 1600,
    k := fun u => if u = "N" then some 2 else none }

/-- The assembled DGM fixture. -/
def dgmEx : DgmModel := convertDgm dgmInputEx

/-- The assembled VELMOD fixture. -/
def velmodEx : VelmodModel := convertVelmod velmodInputEx

/-- The DGM fixture with a different CRS tag. -/
def dgmExRd : DgmModel := { dgmEx with crs := "epsg:28992" }

/-! ## Library lemmas about the embedded list operations -/

theorem mem_insertLe {le : UnitId → UnitId → Bool} {a x : UnitId} :
    ∀ {l : List UnitId}, x ∈ insertLe le a l ↔ x = a ∨ x ∈ l
  | [] => by simp [insertLe]
  | b :: t => by
      by_cases h : le a b = true
      · simp [insertLe, h]
      · simp only [insertLe, if_neg h, List.mem_cons, mem_insertLe (l := t)]
        tauto

theorem insertLe_perm (le : UnitId → UnitId → Bool) (a : UnitId) :
    ∀ (l : List UnitId), List.Perm (insertLe le a l) (a :: l)
  | [] => by simp [insertLe]
  | b :: t => by
      by_cases h : le a b = true
      · simp [insertLe, h]
      · rw [insertLe, if_neg h]
        exact ((insertLe_perm le a t).cons b).trans (List.Perm.swap a b t)

theorem sortLe_perm (le : UnitId → UnitId → Bool) :
    ∀ (l : List UnitId), List.Perm (sortLe le l) l
  | [] => by simp [sortLe]
  | a :: t => by
      rw [sortLe]
      exact (insertLe_perm le a (sortLe le t)).trans ((sortLe_perm le t).cons a)

theorem mem_sortLe {le : UnitId → UnitId → Bool} {x : UnitId} {l : List UnitId} :
    x ∈ sortLe le l ↔ x ∈ l :=
  (sortLe_perm le l).mem_iff

theorem nodup_sortLe {le : UnitId → UnitId → Bool} {l : List UnitId}
    (h : l.Nodup) : (sortLe le l).Nodup :=
  (sortLe_perm le l).nodup_iff.mpr h

theorem pairwise_insertLe {le : UnitId → UnitId → Bool}
    (total : ∀ a b, le a b = true ∨ le b a = true)
    (trans : ∀ a b c, le a b = true → le b c = true → le a c = true)
    {a : UnitId} :
    ∀ {l : List UnitId}, l.Pairwise (fun x y => le x y = true) →
      (insertLe le a l).Pairwise (fun x y => le x y = true)
  | [], _ => by simp [insertLe]
  | b :: t, hp => by
      rcases List.pairwise_cons.mp hp with ⟨hb, ht⟩
      by_cases h : le a b = true
      · rw [insertLe, if_pos h]
        refine List.pairwise_cons.mpr ⟨?_, hp⟩
        intro y hy
        rcases List.mem_cons.mp hy with rfl | hy
        · exact h
        · exact trans a b y h (hb y hy)
      · rw [insertLe, if_neg h]
        refine List.pairwise_cons.mpr ⟨?_, pairwise_insertLe total trans ht⟩
        intro y hy
        rcases mem_insertLe.mp hy with rfl | hy
        · exact (total y b).resolve_left h
        · exact hb y hy

theorem pairwise_sortLe {le : UnitId → UnitId → Bool}
    (total : ∀ a b, le a b = true ∨ le b a = true)
    (trans : ∀ a b c, le a b = true → le b c = true → le a c = true) :
    ∀ (l : List UnitId), (sortLe le l).Pairwise (fun x y => le x y = true)
  | [] => by simp [sortLe]
  | a :: t => by
      rw [sortLe]
      exact pairwise_insertLe total trans (pairwise_sortLe total trans t)

theorem mem_intersect1d {u : UnitId} {a b : List UnitId} :
    u ∈ intersect1d a b ↔ u ∈ a ∧ u ∈ b := by
  simp [intersect1d, mem_sortLe, List.mem_dedup, List.mem_filter]

theorem nodup_intersect1d (a b : List UnitId) : (intersect1d a b).Nodup :=
  nodup_sortLe (List.nodup_dedup _)

theorem mem_sortByOrdering {ord : UnitId → ℕ} {u : UnitId} {l : List UnitId} :
    u ∈ sortByOrdering ord l ↔ u ∈ l :=
  mem_sortLe

theorem nodup_sortByOrdering {ord : UnitId → ℕ} {l : List UnitId}
    (h : l.Nodup) : (sortByOrdering ord l).Nodup :=
  nodup_sortLe h

theorem sorted_sortByOrdering (ord : UnitId → ℕ) (l : List UnitId) :
    ((sortByOrdering ord l).map ord).Sorted (· ≤ ·) := by
  have hp := @pairwise_sortLe (fun a b => decide (ord a ≤ ord b))
    (fun a b => by
      rcases Nat.le_total (ord a) (ord b) with h | h
      · exact Or.inl (by simpa using h)
      · exact Or.inr (by simpa using h))
    (fun a b c hab hbc => by
      simp only [decide_eq_true_eq] at hab hbc ⊢
      exact le_trans hab hbc) l
  refine List.Pairwise.map ord ?_ hp
  intro x y h
  simpa using h

theorem idxmaxUnit_mem {l : List UnitId} {p : UnitId → Bool} {u : UnitId}
    (h : idxmaxUnit l p = some u) : u ∈ l := by
  unfold idxmaxUnit at h
  cases hf : l.find? p with
  | some v =>
      rw [hf] at h
      cases h
      exact List.mem_of_find?_eq_some hf
  | none =>
      rw [hf] at h
      exact List.mem_of_mem_head? h

theorem foldl_skip_shift (l : List (Option ℚ)) (init : ℚ) :
    l.foldl (fun acc o => match o with | some v => acc + v | none => acc) init
      = init +
        l.foldl (fun acc o => match o with | some v => acc + v | none => acc) 0 := by
  induction l generalizing init with
  | nil => simp
  | cons o t ih =>
      cases o with
      | none =>
          simp only [List.foldl_cons]
          exact ih init
      | some v =>
          simp only [List.foldl_cons]
          rw [ih (init + v), ih (0 + v)]
          ring

theorem sumSkip_cons (o : Option ℚ) (l : List (Option ℚ)) :
    sumSkip (o :: l) = o.getD 0 + sumSkip l := by
  cases o with
  | none =>
      simp only [sumSkip, List.foldl_cons, Option.getD_none]
      rw [foldl_skip_shift]
      simp [sumSkip]
  | some v =>
      simp only [sumSkip, List.foldl_cons, Option.getD_some]
      rw [foldl_skip_shift]
      simp [sumSkip]

theorem sumSkip_mask_zero (f : UnitId → Option ℚ) (u : UnitId) :
    ∀ {l : List UnitId}, u ∉ l →
      sumSkip (l.map fun v => if u = v then f v else some 0) = 0
  | [], _ => rfl
  | a :: t, h => by
      have ha : u ≠ a := fun e => h (e ▸ List.mem_cons_self a t)
      have ht : u ∉ t := fun e => h (List.mem_cons_of_mem a e)
      rw [List.map_cons, sumSkip_cons, if_neg ha, sumSkip_mask_zero f u ht]
      simp

theorem sumSkip_mask_single (f : UnitId → Option ℚ) (u : UnitId) :
    ∀ {l : List UnitId}, l.Nodup → u ∈ l →
      sumSkip (l.map fun v => if u = v then f v else some 0) = (f u).getD 0
  | [], _, hm => absurd hm (List.not_mem_nil u)
  | a :: t, hnd, hm => by
      obtain ⟨hna, hnt⟩ := List.nodup_cons.mp hnd
      rcases List.mem_cons.mp hm with h | h
      · subst h
        rw [List.map_cons, sumSkip_cons, if_pos rfl, sumSkip_mask_zero f u hna]
        simp
      · have ha : u ≠ a := by
          rintro rfl
          exact hna h
        rw [List.map_cons, sumSkip_cons, if_neg ha, sumSkip_mask_single f u hnt h]
        simp

theorem mkOrdering_foldl (u : UnitId) :
    ∀ (units : List UnitId) (acc : UnitId → ℕ),
      units.foldl
          (fun acc u => fun v =>
            if v = u then unit_canonical_order.indexOf u else acc v) acc u
        = if u ∈ units then unit_canonical_order.indexOf u else acc u
  | [], acc => by simp
  | x :: t, acc => by
      rw [List.foldl_cons, mkOrdering_foldl u t]
      by_cases ht : u ∈ t
      · simp [ht, List.mem_cons]
      · by_cases hx : u = x
        · subst hx
          simp [ht]
        · simp [ht, hx, List.mem_cons]

theorem mkOrdering_mem {units : List UnitId} {u : UnitId} (h : u ∈ units) :
    mkOrdering units u = unit_canonical_order.indexOf u := by
  rw [mkOrdering, mkOrdering_foldl u units (fun _ => 0), if_pos h]

/-! ## Claim C5 -/

/-- C5: if the CRS tags of the DGM and VELMOD models differ, sampling
fails with the fatal assertion message before any unit selection or
interpolation, and produces no output (the result is the error value, for
every query point and every optional depth). -/
theorem C5_crs_mismatch (pt : Cell) (z : Option ℚ) (dgm : DgmModel)
    (velmod : VelmodModel) (h : dgm.crs ≠ velmod.crs) :
    sample_dgm_velmod pt z dgm velmod =
      Except.error "coordinate reference systems of dgm and velmod do not match" := by
  rw [sample_dgm_velmod, if_neg h]

/-- C5 witness: the fixtures with mismatched CRS tags produce the error. -/
theorem C5_crs_mismatch_witness :
    sample_dgm_velmod 0 none dgmExRd velmodEx =
      Except.error "coordinate reference systems of dgm and velmod do not match" :=
  C5_crs_mismatch 0 none dgmExRd velmodEx (by decide)

/-! ## Claim C6 -/

/-- C6: with matching CRS tags sampling succeeds (no error), and the unit
axis of the sample result is exactly the intersection of the two models'
unit sets: a unit appears in the result iff it is present in both models,
so units present in only one model are dropped without an error. -/
theorem C6_unit_intersection (pt : Cell) (z : Option ℚ) (dgm : DgmModel)
    (velmod : VelmodModel) (h : dgm.crs = velmod.crs) :
    ∃ s, sample_dgm_velmod pt z dgm velmod = Except.ok s ∧
      ∀ u, (u ∈ s.units ↔ u ∈ dgm.units ∧ u ∈ velmod.units) := by
  rw [sample_dgm_velmod, if_pos h]
  cases z with
  | none =>
      exact ⟨_, rfl, fun u => by
        simpa [mem_sortByOrdering] using (mem_intersect1d (u := u))⟩
  | some zq =>
      exact ⟨_, rfl, fun u => by
        simpa [mem_sortByOrdering] using (mem_intersect1d (u := u))⟩

/-- C6 witness: on the fixtures, "CK" (present in both models) is in the
result and "RO" (present only in VELMOD) is dropped. -/
theorem C6_unit_intersection_witness :
    ∃ s, sample_dgm_velmod 0 none dgmEx velmodEx = Except.ok s ∧
      ("CK" ∈ s.units ↔ "CK" ∈ dgmEx.units ∧ "CK" ∈ velmodEx.units) ∧
      ("RO" ∈ s.units ↔ "RO" ∈ dgmEx.units ∧ "RO" ∈ velmodEx.units) := by
  obtain ⟨s, h1, h2⟩ := C6_unit_intersection 0 none dgmEx velmodEx rfl
  exact ⟨s, h1, h2 "CK", h2 "RO"⟩

/-! ## Claim C3 -/

/-- C3: the assembled DGM model contains the synthetic terminal entry:
unit "DC" is on the unit axis and its base depth is `-∞` at every spatial
cell, so for every finite query depth `z` (and every cell) at least one
unit satisfies the active-unit condition `tvd < z` — depth resolution
never runs out of units.  (The hypothesis records that the raw input has
no base-depth grid for the deepest unit "DC", which is what makes the
appended sentinel the one that is kept; this matches the published data
and the DGM glob in `convert.py`.) -/
theorem C3_terminal_sentinel (inp : DgmInput)
    (hdc : ∀ g ∈ inp.grids, g.1 ≠ "DC") :
    "DC" ∈ (convertDgm inp).units ∧
    (∀ c, (convertDgm inp).tvd "DC" c = DepthVal.negInf) ∧
    (∀ z : ℚ, ∀ c, ∃ u, u ∈ (convertDgm inp).units ∧
      depthBelow ((convertDgm inp).tvd u c) z = true) := by
  have hmem : "DC" ∈ (convertDgm inp).units := by
    simp only [convertDgm, mem_sortByOrdering, List.mem_dedup, List.map_append]
    simp
  have htvd : ∀ c, (convertDgm inp).tvd "DC" c = DepthVal.negInf := by
    intro c
    simp only [convertDgm]
    rw [List.find?_append]
    have hnone : inp.grids.find? (fun g => decide (g.1 = "DC")) = none := by
      rw [List.find?_eq_none]
      intro g hg
      simpa using hdc g hg
    rw [hnone]
    simp
  exact ⟨hmem, htvd, fun z c => ⟨"DC", hmem, by rw [htvd c]; rfl⟩⟩

/-- C3 witness: on the fixture input, "DC" is present with base `-∞`, and
a unit resolves at the (arbitrarily deep) query depth −99999. -/
theorem C3_terminal_sentinel_witness :
    "DC" ∈ (convertDgm dgmInputEx).units ∧
    (convertDgm dgmInputEx).tvd "DC" 0 = DepthVal.negInf ∧
    ∃ u, u ∈ (convertDgm dgmInputEx).units ∧
      depthBelow ((convertDgm dgmInputEx).tvd u 0) (-99999) = true :=
  ⟨(C3_terminal_sentinel dgmInputEx (by decide)).1,
   (C3_terminal_sentinel dgmInputEx (by decide)).2.1 0,
   (C3_terminal_sentinel dgmInputEx (by decide)).2.2 (-99999) 0⟩

/-! ## Claim C7 -/

/-- C7: in both assembled canonical models the ordering field of every
unit on the unit axis equals that unit's index in the fixed canonical
unit-order vocabulary, and each model's unit axis is sorted ascending by
the ordering value. -/
theorem C7_canonical_ordering (dinp : DgmInput) (vinp : VelmodInput)
    (u v : UnitId) (hu : u ∈ (convertDgm dinp).units)
    (hv : v ∈ (convertVelmod vinp).units) :
    (convertDgm dinp).ordering u = unit_canonical_order.indexOf u ∧
    (convertVelmod vinp).ordering v = unit_canonical_order.indexOf v ∧
    ((convertDgm dinp).units.map (convertDgm dinp).ordering).Sorted (· ≤ ·) ∧
    ((convertVelmod vinp).units.map (convertVelmod vinp).ordering).Sorted (· ≤ ·) := by
  simp only [convertDgm, convertVelmod] at hu hv ⊢
  rw [mem_sortByOrdering] at hu hv
  exact ⟨mkOrdering_mem hu, mkOrdering_mem hv,
    sorted_sortByOrdering _ _, sorted_sortByOrdering _ _⟩

/-- C7 witness: on the fixtures, "DC" (DGM) and "RO" (VELMOD) carry their
vocabulary indices, and both unit axes are sorted by ordering. -/
theorem C7_canonical_ordering_witness :
    (convertDgm dgmInputEx).ordering "DC" = unit_canonical_order.indexOf "DC" ∧
    (convertVelmod velmodInputEx).ordering "RO" = unit_canonical_order.indexOf "RO" ∧
    ((convertDgm dgmInputEx).units.map (convertDgm dgmInputEx).ordering).Sorted (· ≤ ·) ∧
    ((convertVelmod velmodInputEx).units.map (convertVelmod velmodInputEx).ordering).Sorted (· ≤ ·) :=
  C7_canonical_ordering dgmInputEx velmodInputEx "DC" "RO" (by decide) (by decide)

/-! ## Claim C8 -/

/-- fillna keeps a valid value. -/
theorem fillna_some (x : ℚ) (fill : Option ℚ) : fillna (some x) fill = some x := rfl

/-- fillna substitutes the fill value at a no-data cell. -/
theorem fillna_none (fill : Option ℚ) : fillna none fill = fill := rfl

/-- meanValid written as a single conditional expression. -/
theorem meanValid_eq (cells : List Cell) (f : Cell → Option ℚ) :
    meanValid cells f =
      if cells.filterMap f = [] then none
      else some ((cells.filterMap f).sum / ((cells.filterMap f).length : ℚ)) := by
  simp only [meanValid]
  rcases h : cells.filterMap f with _ | ⟨v, t⟩ <;> simp [h]

/-- Unfolding of the raw (post-ZE-substitution) intercept of the
assembled VELMOD model. -/
theorem convertVelmod_V0 (inp : VelmodInput) (kt st : String) (u : UnitId) (c : Cell) :
    (convertVelmod inp).V0 kt st u c =
      if u = "ZE" then inp.Vint kt st u c else inp.V0 kt st u c := rfl

/-- Unfolding of the gap-filled intercept of the assembled VELMOD model:
per (kriging type, statistic, unit), the V0 field with no-data cells
replaced by the mean of that unit's valid cells. -/
theorem convertVelmod_V0_filled (inp : VelmodInput) (kt st : String) (u : UnitId) (c : Cell) :
    (convertVelmod inp).V0_filled kt st u c =
      fillna ((convertVelmod inp).V0 kt st u c)
        (meanValid inp.cells ((convertVelmod inp).V0 kt st u)) := rfl

/-- C8: in the assembled VELMOD model, `V0_filled` equals `V0` with each
no-data cell replaced by the mean of that same unit's valid `V0` cells
(the per-unit spatial mean taken at that unit only); a valid cell is kept
unchanged; and for a unit with zero valid cells the filled value remains
no-data (no error is raised — the conversion is total). -/
theorem C8_gap_fill (inp : VelmodInput) (kt st : String) (u : UnitId) (c : Cell) :
    (∀ x, (convertVelmod inp).V0 kt st u c = some x →
      (convertVelmod inp).V0_filled kt st u c = some x) ∧
    ((convertVelmod inp).V0 kt st u c = none →
      inp.cells.filterMap ((convertVelmod inp).V0 kt st u) ≠ [] →
      (convertVelmod inp).V0_filled kt st u c =
        some ((inp.cells.filterMap ((convertVelmod inp).V0 kt st u)).sum /
          ((inp.cells.filterMap ((convertVelmod inp).V0 kt st u)).length : ℚ))) ∧
    ((∀ c2 ∈ inp.cells, (convertVelmod inp).V0 kt st u c2 = none) →
      (convertVelmod inp).V0 kt st u c = none →
      (convertVelmod inp).V0_filled kt st u c = none) := by
  refine ⟨?_, ?_, ?_⟩
  · intro x hx
    rw [convertVelmod_V0_filled, hx, fillna_some]
  · intro hnone hne
    rw [convertVelmod_V0_filled, hnone, fillna_none, meanValid_eq, if_neg hne]
  · intro hall hnone
    have hfm : inp.cells.filterMap ((convertVelmod inp).V0 kt st u) = [] := by
      rw [List.filterMap_eq_nil_iff]
      exact hall
    rw [convertVelmod_V0_filled, hnone, fillna_none, meanValid_eq, if_pos hfm]

/-- C8 witness: on the fixture, unit "N" has a no-data mean intercept at
cell 0 and one valid cell of value 1500, so the fill is 1500; unit "RO"
has zero valid cells and stays no-data. -/
theorem C8_gap_fill_witness :
    (convertVelmod velmodInputEx).V0 "sk" "mean" "N" 0 = none ∧
    (convertVelmod velmodInputEx).V0_filled "sk" "mean" "N" 0 = some 1500 ∧
    (convertVelmod velmodInputEx).V0_filled "sk" "mean" "RO" 1 = none := by
  refine ⟨by decide, ?_,
    (C8_gap_fill velmodInputEx "sk" "mean" "RO" 1).2.2 (by decide) (by decide)⟩
  have h := (C8_gap_fill velmodInputEx "sk" "mean" "N" 0).2.1 (by decide) (by decide)
  rw [h]
  with_unfolding_all rfl

/-! ## Claim C10 -/

/-- C10: the V0 and V0-standard-deviation fields of every sample result
are both taken from the gap-filled intercept `V0_filled`, selecting the
mean and sd statistics under simple kriging — never from the raw
unfilled intercept; consequently, at a query point where a unit's raw V0
is no-data but the unit has valid cells elsewhere, the sampled V0 is that
unit's fill value (the per-unit mean), not no-data. -/
theorem C10_filled_intercept (pt : Cell) (z : Option ℚ) (dgm : DgmModel)
    (vinp : VelmodInput) (hcrs : dgm.crs = (convertVelmod vinp).crs) :
    ∃ s, sample_dgm_velmod pt z dgm (convertVelmod vinp) = Except.ok s ∧
      (∀ u, s.V0 u = (convertVelmod vinp).V0_filled "sk" "mean" u pt) ∧
      (∀ u, s.V0_sd u = (convertVelmod vinp).V0_filled "sk" "sd" u pt) ∧
      (∀ u, (convertVelmod vinp).V0 "sk" "mean" u pt = none →
        vinp.cells.filterMap ((convertVelmod vinp).V0 "sk" "mean" u) ≠ [] →
        s.V0 u = meanValid vinp.cells ((convertVelmod vinp).V0 "sk" "mean" u) ∧
        s.V0 u ≠ none) := by
  rw [sample_dgm_velmod, if_pos hcrs]
  have key : ∀ u, (convertVelmod vinp).V0 "sk" "mean" u pt = none →
      vinp.cells.filterMap ((convertVelmod vinp).V0 "sk" "mean" u) ≠ [] →
      (convertVelmod vinp).V0_filled "sk" "mean" u pt =
        meanValid vinp.cells ((convertVelmod vinp).V0 "sk" "mean" u) ∧
      (convertVelmod vinp).V0_filled "sk" "mean" u pt ≠ none := by
    intro u hnone hne
    constructor
    · rw [convertVelmod_V0_filled, hnone, fillna_none]
    · rw [convertVelmod_V0_filled, hnone, fillna_none, meanValid_eq, if_neg hne]
      exact Option.some_ne_none _
  cases z with
  | none => exact ⟨_, rfl, fun u => rfl, fun u => rfl, key⟩
  | some zq => exact ⟨_, rfl, fun u => rfl, fun u => rfl, key⟩

/-- C10 witness: on the fixtures, both sampled intercept fields come from
`V0_filled`, and unit "N" — whose raw V0 is no-data at the query point but
valid elsewhere — samples to a valid (filled) V0. -/
theorem C10_filled_intercept_witness :
    ∃ s, sample_dgm_velmod 0 none dgmEx velmodEx = Except.ok s ∧
      s.V0 "CK" = velmodEx.V0_filled "sk" "mean" "CK" 0 ∧
      s.V0_sd "CK" = velmodEx.V0_filled "sk" "sd" "CK" 0 ∧
      s.V0 "N" ≠ none := by
  obtain ⟨s, h1, h2, h3, h4⟩ := C10_filled_intercept 0 none dgmEx velmodInputEx rfl
  exact ⟨s, h1, h2 "CK", h3 "CK", (h4 "N" (by decide) (by decide)).2⟩

/-! ## Claim C1 -/

/-- C1 counterexample: on the fixtures at depth z = −200 the code selects
"CK" (the first unit with base −300 < −200, base below z), while the
claim's rule (first unit with base > z) selects "N" (base −100 > −200) —
a different unit, so the claim as stated is false on the code. -/
theorem C1_claim_counterexample :
    (sample_dgm_velmod 0 (some (-200)) dgmEx velmodEx).toOption.map
        (fun s => s.unit_samples) = some (some "CK") ∧
    specActiveUnitAbove dgmEx velmodEx 0 (-200) = some "N" ∧
    ("CK" : UnitId) ≠ "N" :=
  ⟨by decide, by decide, by decide⟩

/-- C1 (amended): the active unit returned by sampling is the first unit,
scanning the canonical order from the top, whose per-unit interpolated
base depth lies BELOW z (base < z — the unit's base is deeper than the
query depth, so z falls within or above that unit). -/
theorem C1_first_unit_base_below (pt : Cell) (zq : ℚ) (dgm : DgmModel)
    (velmod : VelmodModel) (u : UnitId) (hcrs : dgm.crs = velmod.crs)
    (hfind : (sortByOrdering dgm.ordering (intersect1d dgm.units velmod.units)).find?
        (fun v => depthBelow (dgm.tvd v pt) zq) = some u) :
    ∃ s, sample_dgm_velmod pt (some zq) dgm velmod = Except.ok s ∧
      s.unit_samples = some u ∧
      depthBelow (dgm.tvd u pt) zq = true ∧
      u ∈ dgm.units ∧ u ∈ velmod.units := by
  have hmem := List.mem_of_find?_eq_some hfind
  rw [mem_sortByOrdering, mem_intersect1d] at hmem
  have hp : depthBelow (dgm.tvd u pt) zq = true := by
    simpa using List.find?_some hfind
  rw [sample_dgm_velmod, if_pos hcrs]
  refine ⟨_, rfl, ?_, hp, hmem.1, hmem.2⟩
  show idxmaxUnit (sortByOrdering dgm.ordering (intersect1d dgm.units velmod.units))
      (fun v => depthBelow (dgm.tvd v pt) zq) = some u
  rw [idxmaxUnit, hfind]

/-- C1 (amended) witness: on the fixtures at z = −200 the first unit with
base below z is "CK", and sampling returns it. -/
theorem C1_first_unit_base_below_witness :
    ∃ s, sample_dgm_velmod 1 (some (-200)) dgmEx velmodEx = Except.ok s ∧
      s.unit_samples = some "CK" ∧
      depthBelow (dgmEx.tvd "CK" 1) (-200) = true ∧
      "CK" ∈ dgmEx.units ∧ "CK" ∈ velmodEx.units :=
  C1_first_unit_base_below 1 (-200) dgmEx velmodEx "CK" rfl (by decide)

/-! ## Claim C9 -/

/-- C9: at a query point and depth where no unit of the combined axis
satisfies the active-unit comparison (`tvd < z` is false for every unit),
sampling does not fail and does not return no-data: the active unit is
the first unit of the ordering-sorted unit axis, i.e. the topmost unit of
the canonical order. -/
theorem C9_all_false_gives_topmost (pt : Cell) (zq : ℚ) (dgm : DgmModel)
    (velmod : VelmodModel) (u : UnitId) (hcrs : dgm.crs = velmod.crs)
    (hall : ∀ v ∈ sortByOrdering dgm.ordering (intersect1d dgm.units velmod.units),
      depthBelow (dgm.tvd v pt) zq = false)
    (hhead : (sortByOrdering dgm.ordering
        (intersect1d dgm.units velmod.units)).head? = some u) :
    ∃ s, sample_dgm_velmod pt (some zq) dgm velmod = Except.ok s ∧
      s.unit_samples = some u := by
  rw [sample_dgm_velmod, if_pos hcrs]
  refine ⟨_, rfl, ?_⟩
  show idxmaxUnit (sortByOrdering dgm.ordering (intersect1d dgm.units velmod.units))
      (fun v => depthBelow (dgm.tvd v pt) zq) = some u
  have hnone : (sortByOrdering dgm.ordering
      (intersect1d dgm.units velmod.units)).find?
        (fun v => depthBelow (dgm.tvd v pt) zq) = none := by
    rw [List.find?_eq_none]
    intro x hx
    simp [hall x hx]
  rw [idxmaxUnit, hnone]
  exact hhead

/-- C9 witness: at z = −400 every base of the fixture axis (−100, −300)
fails `tvd < z`, and sampling returns the topmost unit "N". -/
theorem C9_all_false_gives_topmost_witness :
    ∃ s, sample_dgm_velmod 0 (some (-400)) dgmEx velmodEx = Except.ok s ∧
      s.unit_samples = some "N" :=
  C9_all_false_gives_topmost 0 (-400) dgmEx velmodEx "N" rfl (by decide) (by decide)

/-! ## Claim C2 -/

/-- C2: when the active unit's (gap-filled, mean/simple-kriging) V0 and
slope k are valid at the query point, the combined instantaneous velocity
equals exactly V0 − k·z with the active unit's values — exact rational
equality, not an approximation. -/
theorem C2_combined_vinst_linear (pt : Cell) (zq : ℚ) (dgm : DgmModel)
    (velmod : VelmodModel) (u : UnitId) (v0 kv : ℚ)
    (hcrs : dgm.crs = velmod.crs)
    (hu : idxmaxUnit (sortByOrdering dgm.ordering (intersect1d dgm.units velmod.units))
        (fun v => depthBelow (dgm.tvd v pt) zq) = some u)
    (hV0 : velmod.V0_filled "sk" "mean" u pt = some v0)
    (hk : velmod.k u = some kv) :
    ∃ s, sample_dgm_velmod pt (some zq) dgm velmod = Except.ok s ∧
      s.unit_samples = some u ∧ s.Vinst = some (v0 - kv * zq) := by
  have hnd : (sortByOrdering velmod.ordering
      (intersect1d dgm.units velmod.units)).Nodup :=
    nodup_sortByOrdering (nodup_intersect1d _ _)
  have hm : u ∈ sortByOrdering velmod.ordering (intersect1d dgm.units velmod.units) := by
    rw [mem_sortByOrdering]
    exact (mem_sortByOrdering.mp (idxmaxUnit_mem hu))
  rw [sample_dgm_velmod, if_pos hcrs]
  refine ⟨_, rfl, hu, ?_⟩
  show some (sumSkip ((sortByOrdering velmod.ordering
      (intersect1d dgm.units velmod.units)).map fun v =>
        if decide ((idxmaxUnit (sortByOrdering dgm.ordering
            (intersect1d dgm.units velmod.units))
          (fun w => depthBelow (dgm.tvd w pt) zq)) = some v) = true
        then obSub (velmod.V0_filled "sk" "mean" v pt)
          (obMul (velmod.k v) (some zq))
        else some 0)) = some (v0 - kv * zq)
  simp only [hu, Option.some.injEq, decide_eq_true_eq]
  rw [sumSkip_mask_single
    (fun v => obSub (velmod.V0_filled "sk" "mean" v pt) (obMul (velmod.k v) (some zq)))
    u hnd hm]
  rw [hV0, hk]
  rfl

/-- C2 witness: on the fixtures at cell 1 and z = −50 the active unit is
"N" with V0 = 1500 and k = 2, and the combined velocity is exactly
1500 − 2·(−50). -/
theorem C2_combined_vinst_linear_witness :
    ∃ s, sample_dgm_velmod 1 (some (-50)) dgmEx velmodEx = Except.ok s ∧
      s.unit_samples = some "N" ∧ s.Vinst = some (1500 - 2 * (-50)) :=
  C2_combined_vinst_linear 1 (-50) dgmEx velmodEx "N" 1500 2 rfl
    (by decide) (by decide) (by decide)

/-! ## Claim C4 -/

/-- C4: the combined-velocity sum replaces every non-selected unit's
contribution by 0 before summation (the mask selects exactly the active
unit, and the result depends only on the active unit's per-unit velocity,
so a no-data value in an inactive unit never reaches the sum); and when
the active unit's own per-unit velocity is no-data, the combined Vinst is
a silent 0 — a value, not an error and not no-data. -/
theorem C4_mask_silent_zero (pt : Cell) (zq : ℚ) (dgm : DgmModel)
    (velmod : VelmodModel) (u : UnitId) (hcrs : dgm.crs = velmod.crs)
    (hu : idxmaxUnit (sortByOrdering dgm.ordering (intersect1d dgm.units velmod.units))
        (fun v => depthBelow (dgm.tvd v pt) zq) = some u) :
    ∃ s, sample_dgm_velmod pt (some zq) dgm velmod = Except.ok s ∧
      (∃ m, s.unit_mask = some m ∧ ∀ v, (m v = true ↔ v = u)) ∧
      s.Vinst = some ((obSub (velmod.V0_filled "sk" "mean" u pt)
        (obMul (velmod.k u) (some zq))).getD 0) ∧
      (obSub (velmod.V0_filled "sk" "mean" u pt) (obMul (velmod.k u) (some zq)) = none →
        s.Vinst = some 0) := by
  have hnd : (sortByOrdering velmod.ordering
      (intersect1d dgm.units velmod.units)).Nodup :=
    nodup_sortByOrdering (nodup_intersect1d _ _)
  have hm : u ∈ sortByOrdering velmod.ordering (intersect1d dgm.units velmod.units) := by
    rw [mem_sortByOrdering]
    exact (mem_sortByOrdering.mp (idxmaxUnit_mem hu))
  rw [sample_dgm_velmod, if_pos hcrs]
  have hsum : some (sumSkip ((sortByOrdering velmod.ordering
      (intersect1d dgm.units velmod.units)).map fun v =>
        if decide ((idxmaxUnit (sortByOrdering dgm.ordering
            (intersect1d dgm.units velmod.units))
          (fun w => depthBelow (dgm.tvd w pt) zq)) = some v) = true
        then obSub (velmod.V0_filled "sk" "mean" v pt)
          (obMul (velmod.k v) (some zq))
        else some 0)) = some ((obSub (velmod.V0_filled "sk" "mean" u pt)
          (obMul (velmod.k u) (some zq))).getD 0) := by
    simp only [hu, Option.some.injEq, decide_eq_true_eq]
    rw [sumSkip_mask_single
      (fun v => obSub (velmod.V0_filled "sk" "mean" v pt) (obMul (velmod.k v) (some zq)))
      u hnd hm]
  refine ⟨_, rfl, ⟨_, rfl, ?_⟩, hsum, ?_⟩
  · intro v
    simp [hu, eq_comm]
  · intro hnone
    rw [hsum, hnone]
    rfl

/-- C4 witness: on the fixtures at z = −200 the active unit is "CK",
whose slope is no-data, and the combined Vinst is the silent value 0; the
mask selects "CK" and not "N". -/
theorem C4_mask_silent_zero_witness :
    ∃ s, sample_dgm_velmod 0 (some (-200)) dgmEx velmodEx = Except.ok s ∧
      (∃ m, s.unit_mask = some m ∧ m "CK" = true ∧ m "N" = false) ∧
      s.Vinst = some 0 := by
  obtain ⟨s, h1, ⟨m, hm1, hm2⟩, h3, h4⟩ :=
    C4_mask_silent_zero 0 (-200) dgmEx velmodEx "CK" rfl (by decide)
  refine ⟨s, h1, ⟨m, hm1, (hm2 "CK").mpr rfl, ?_⟩, h4 (by decide)⟩
  cases hmn : m "N"
  · rfl
  · exact absurd ((hm2 "N").mp hmn) (by decide)
